import Mathlib

/-!
Verification of mlens/parallel/estimation.py (ML-Ensemble, layer estimation engine).

This file gives a shallow embedding of the orchestration core of
src/mlens/parallel/estimation.py: the fold-index/slicing algebra
(_slice_array), the prediction-matrix assembly (_assign_predictions), the
artifact-cache bounded-wait protocol (_load_trans), the transform fallback
(_transform, the loop of fit_trans), the estimator fit task (fit_est), the
fitted-artifact retrieval (_retrieve, _check_fitted, predict, transform) and
the score aggregation (BaseEstimator._build_scores).

Modelling conventions:
  * numpy arrays are Lean lists (rows); 2-D prediction buffers are a row
    count together with a total function Nat -> Nat -> value;
  * Python integers used as indices are Nat; the theorems carry the
    in-bounds hypotheses (row offset below range start, range end inside the
    array) under which Nat subtraction agrees with Python arithmetic;
  * exceptions are Except / Option values; a raised exception is an error
    value, a caught exception is a matched error value;
  * wall-clock time in the cache wait loop is discretized: one unit of time
    per sleep(interval) call, so the elapsed time after k sleeps is k * s.
-/

/-! ## Index algebra: _slice_array (estimation.py lines 320-349) -/

/-- A fold index descriptor as passed to `_slice_array` / `_assign_predictions`:
either a plain pair `(a, b)` denoting the half-open row range `[a, b)`, or a
tuple of such pairs `((a1, b1), (a2, b2), ...)`. -/
inductive TIdx where
  | single (a b : Nat)
  | ranges (rs : List (Nat × Nat))
deriving DecidableEq, Repr

/-- `np.arange a b` for natural bounds: the list `[a, a+1, ..., b-1]`
(empty when `b ≤ a`). -/
def natRange (a b : Nat) : List Nat := List.range' a (b - a)

/-- Basic (contiguous) slicing `x[a:b]` on a list, with numpy/Python clamping
semantics for natural bounds. -/
def pySlice (x : List α) (a b : Nat) : List α := (x.drop a).take (b - a)

/-- Advanced ("fancy") integer-array indexing `x[is]`; the gather copies the
selected rows.  Out-of-range positions (which make numpy raise) are mapped to
`default`; every theorem below keeps them out of range of its hypotheses. -/
def gatherD [Inhabited α] (x : List α) (is : List Nat) : List α :=
  is.map (fun i => x.getD i default)

/-- Embedding of `_slice_array(x, y, idx, r)` (estimation.py lines 320-349).
`x` is the data, `y` the optional label array, `idx` the optional index
descriptor and `r` the row offset ("rebase").

For a nested descriptor the source tests `len(idx[0]) > 1`; `idx[0]` is one
`(start, stop)` range, a 2-tuple, so the test is true for every nested
descriptor and the advanced-indexing branch is always taken (the
`idx = idx[0]` reduction branch would need a 1-element first range). -/
def slice_array [Inhabited α] [Inhabited β]
    (x : List α) (y : Option (List β)) (idx : Option TIdx) (r : Nat) :
    List α × Option (List β) :=
  match idx with
  | none => (x, y)
  | some (TIdx.ranges rs) =>
      let is := rs.flatMap (fun p => natRange (p.1 - r) (p.2 - r))
      (gatherD x is, y.map (fun l => gatherD l is))
  | some (TIdx.single a b) =>
      (pySlice x (a - r) (b - r), y.map (fun l => pySlice l (a - r) (b - r)))

/-- Which of the three control paths `_slice_array` takes. -/
inductive SlicePath where
  | noIdx
  | simple
  | advanced
deriving DecidableEq, Repr

/-- The branch taken by `_slice_array` for a given descriptor.  A nested
descriptor always goes to the advanced branch because the source condition
`len(idx[0]) > 1` tests the arity of the first range (always 2), not the
number of ranges. -/
def slice_array_path : Option TIdx → SlicePath
  | none => SlicePath.noIdx
  | some (TIdx.ranges _) => SlicePath.advanced
  | some (TIdx.single _ _) => SlicePath.simple

/-! ### Elementary lemmas about slices and gathers -/

theorem pySlice_length (x : List α) (a b : Nat) (hb : b ≤ x.length) :
    (pySlice x a b).length = b - a := by
  simp [pySlice]
  omega

theorem pySlice_get? (x : List α) (a b i : Nat) (hi : i < b - a) :
    (pySlice x a b).get? i = x.get? (a + i) := by
  unfold pySlice
  rw [List.get?_take hi, List.get?_drop]

theorem gatherD_natRange [Inhabited α] (x : List α) (a b : Nat)
    (hb : b ≤ x.length) : gatherD x (natRange a b) = pySlice x a b := by
  apply List.ext_get?
  intro i
  by_cases hi : i < b - a
  · rw [pySlice_get? x a b i hi]
    have hmem : (natRange a b).get? i = some (a + i) := by
      unfold natRange
      rw [List.get?_range' _ _ hi]
      norm_num
    have hlen : i < (natRange a b).length := by
      simp [natRange]; omega
    have hax : a + i < x.length := by omega
    simp only [gatherD, List.get?_map, hmem, Option.map_some']
    rw [List.getD_eq_get _ _ hax]
    rw [List.get?_eq_get hax]
  · have h1 : (gatherD x (natRange a b)).length = b - a := by
      simp [gatherD, natRange]
    have h2 : (pySlice x a b).length = b - a := pySlice_length x a b hb
    rw [List.get?_eq_none.2, List.get?_eq_none.2] <;> omega

/-! ## Prediction assembly: _assign_predictions (estimation.py lines 352-368) -/

/-- A prediction returned by an estimator: 1-D vector or 2-D matrix
(`len(p.shape)` distinguishes the two in the source). -/
inductive PredV (τ : Type) where
  | one (v : List τ)
  | two (m : List (List τ))
deriving DecidableEq

/-- The shared prediction buffer ("memmaped prediction array"): a row count
and a total cell map.  Cells outside `[0, rows) × [0, cols)` are never touched
by the modelled writes under the theorems' hypotheses. -/
structure Buff (τ : Type) where
  rows : Nat
  data : Nat → Nat → τ

/-- The row selector `_assign_predictions` computes: a basic slice or an
explicit (advanced) index array. -/
inductive RowSel where
  | slc (a b : Nat)
  | arr (is : List Nat)
deriving DecidableEq, Repr

/-- Row indices addressed by `x[a:b]` on an array of `R` rows (with Python
slice clamping). -/
def sliceIdx (a b R : Nat) : List Nat := ((List.range R).drop a).take (b - a)

/-- Row indices addressed by a selector on a buffer of `R` rows. -/
def rowsOfSel : RowSel → Nat → List Nat
  | RowSel.slc a b, R => sliceIdx a b R
  | RowSel.arr is, _ => is

/-- Resolution of the test-index descriptor in `_assign_predictions`
(lines 356-363): a nested descriptor of two or more ranges becomes an explicit
index array (`np.hstack` of the per-range `np.arange`s); a one-element nested
descriptor is unpacked (`tei = tei[0]`) and, like a plain pair, becomes a
basic slice.  (`tei[0]` on an empty nested descriptor raises IndexError in
the source; the `[]` case below is a harmless totalization.) -/
def assign_resolve (tei : TIdx) (r : Nat) : RowSel :=
  match tei with
  | TIdx.ranges rs =>
      if rs.length > 1 then
        RowSel.arr (rs.flatMap (fun p => natRange (p.1 - r) (p.2 - r)))
      else
        match rs with
        | [p] => RowSel.slc (p.1 - r) (p.2 - r)
        | _ => RowSel.arr []
  | TIdx.single a b => RowSel.slc (a - r) (b - r)

/-- The branch `_assign_predictions` takes for a descriptor: its condition is
`len(tei) > 1` (the number of ranges), unlike `_slice_array`. -/
def assign_path : TIdx → SlicePath
  | TIdx.single _ _ => SlicePath.simple
  | TIdx.ranges rs => if rs.length > 1 then SlicePath.advanced else SlicePath.simple

/-- Overwrite one cell of a cell map. -/
def writeCell (d : Nat → Nat → τ) (i j : Nat) (v : τ) : Nat → Nat → τ :=
  fun a b => if a = i ∧ b = j then v else d a b

/-- Overwrite a list of cells, in order (later writes win). -/
def writeCells (d : Nat → Nat → τ) (cs : List ((Nat × Nat) × τ)) : Nat → Nat → τ :=
  cs.foldl (fun acc c => writeCell acc c.1.1 c.1.2 c.2) d

/-- Embedding of `_assign_predictions(pred, p, tei, col, n)` (lines 352-368).
`r = n - pred.shape[0]`; a 1-D `p` is written into column `col` of the
resolved rows, a 2-D `p` into columns `col .. col + p.shape[1] - 1`. -/
def assign_predictions (pred : Buff τ) (p : PredV τ) (tei : TIdx) (col n : Nat) :
    Buff τ :=
  let r := n - pred.rows
  let rows := rowsOfSel (assign_resolve tei r) pred.rows
  match p with
  | PredV.one v =>
      ⟨pred.rows, writeCells pred.data
        ((rows.zip v).map (fun iv => ((iv.1, col), iv.2)))⟩
  | PredV.two m =>
      ⟨pred.rows, writeCells pred.data
        ((rows.zip m).flatMap (fun im => im.2.enum.map
          (fun jv => ((im.1, col + jv.1), jv.2))))⟩

/-! ### Lemmas about cell writes -/

theorem writeCells_not_mem (d : Nat → Nat → τ) (cs : List ((Nat × Nat) × τ))
    (i j : Nat) (h : (i, j) ∉ cs.map Prod.fst) : writeCells d cs i j = d i j := by
  induction cs generalizing d with
  | nil => rfl
  | cons c rest ih =>
      simp only [List.map_cons, List.mem_cons, not_or] at h
      have := ih (writeCell d c.1.1 c.1.2 c.2) h.2
      simp only [writeCells, List.foldl_cons] at this ⊢
      rw [this, writeCell]
      have hne : ¬(i = c.1.1 ∧ j = c.1.2) := by
        intro hc
        exact h.1 (by rw [hc.1, hc.2])
      simp [hne]

theorem writeCells_mem (d : Nat → Nat → τ) (cs : List ((Nat × Nat) × τ))
    (i j : Nat) (v : τ) (hnd : (cs.map Prod.fst).Nodup) (hm : ((i, j), v) ∈ cs) :
    writeCells d cs i j = v := by
  induction cs generalizing d with
  | nil => simp at hm
  | cons c rest ih =>
      simp only [List.map_cons, List.nodup_cons] at hnd
      rcases List.mem_cons.1 hm with hc | hrest
      · have hnot : (i, j) ∉ rest.map Prod.fst := by
          rw [← hc] at hnd
          exact hnd.1
        simp only [writeCells, List.foldl_cons]
        rw [show List.foldl (fun acc c => writeCell acc c.1.1 c.1.2 c.2)
              (writeCell d c.1.1 c.1.2 c.2) rest =
            writeCells (writeCell d c.1.1 c.1.2 c.2) rest from rfl]
        rw [writeCells_not_mem _ _ _ _ hnot, ← hc, writeCell]
        simp
      · simp only [writeCells, List.foldl_cons]
        exact ih (writeCell d c.1.1 c.1.2 c.2) hnd.2 hrest

/-! ## y-rebase in BaseEstimator.fit (estimation.py lines 144-150) -/

/-- Embedding of the alignment step of `BaseEstimator.fit`: when `y` has more
rows than `X`, the leading `len(y) - len(X)` rows of `y` are discarded
(`rebase = y.shape[0] - X.shape[0]; y = y[rebase:]`). -/
def fit_y_rebase (x : List α) (y : List β) : List β :=
  if y.length > x.length then y.drop (y.length - x.length) else y

/-! ## Fitted-state access and artifact retrieval
(estimation.py lines 206-208, 235-237, 264-304) -/

/-- Exceptions surfaced by the layer-level entry points. -/
inductive LayerErr where
  | notFitted (msg : String)
  | valueError
  | attributeError
  | keyError
deriving DecidableEq, Repr

/-- The slice of the `Layer` object that the estimation engine reads and
writes.  `estimators_ = none` models the attribute not existing (never
fitted); `preprocessing_ = none` models a layer without preprocessing. -/
structure Layer (E P : Type) where
  n_pred : Nat
  n_prep : Nat
  estimators_ : Option (List (String × E))
  preprocessing_ : Option (List (String × P))

/-- `mlens.utils.check_is_fitted(layer, "estimators_")`: raises
`NotFittedError` when the attribute is absent. -/
def check_is_fitted (layer : Layer E P) : Except LayerErr Unit :=
  match layer.estimators_ with
  | none => Except.error (LayerErr.notFitted "estimators_")
  | some _ => Except.ok ()

/-- Embedding of `BaseEstimator._check_fitted` (lines 264-270): the attribute
must exist, and the fitted-estimator list must be non-empty. -/
def layer_check_fitted (layer : Layer E P) : Except LayerErr Unit :=
  match check_is_fitted layer with
  | Except.error e => Except.error e
  | Except.ok _ =>
      match layer.estimators_ with
      | some ests =>
          if ests.length = 0 then
            Except.error (LayerErr.notFitted "No estimators successfully fitted.")
          else Except.ok ()
      | none => Except.error LayerErr.attributeError

/-- Embedding of `BaseEstimator._retrieve(s)` (lines 272-304).  `"full"`
returns the first `n_pred` estimators and the first `max(n_prep, 1)`
preprocessing pipelines; `"fold"` the remainders; anything else raises
`ValueError`.  (The source wraps the preprocessing pairs in `dict(...)`;
the association list here is that dictionary in insertion order.) -/
def layer_retrieve (layer : Layer E P) (s : String) :
    Except LayerErr (Option (List (String × P)) × List (String × E)) :=
  let n_pred := layer.n_pred
  let n_prep := max layer.n_prep 1
  if s = "full" then
    match layer.estimators_ with
    | none => Except.error LayerErr.attributeError
    | some ests =>
        Except.ok (layer.preprocessing_.map (fun l => l.take n_prep), ests.take n_pred)
  else if s = "fold" then
    match layer.estimators_ with
    | none => Except.error LayerErr.attributeError
    | some ests =>
        Except.ok (layer.preprocessing_.map (fun l => l.drop n_prep), ests.drop n_pred)
  else Except.error LayerErr.valueError

/-! ## Artifact cache bounded wait: _load_trans (estimation.py lines 540-580)

The cache is modelled as a function of discrete time: `cache t` is the
artifact if the file exists at the time of the `t`-th existence poll, `none`
otherwise.  One time unit passes per `sleep(s)`, so after `k` sleeps since
the last timer reset the source's `time_() - ts` equals `k * s`. -/

/-- Outcome of `_load_trans`: the artifact (with the number of sleeps that
elapsed and whether a timeout warning was emitted), a fatal
`ParallelProcessingError` naming the missing cache key, or fuel exhaustion
(the modelling artifact for a run longer than the fuel bound). -/
inductive LoadRes (A : Type) where
  | loaded (artifact : A) (sleeps : Nat) (warned : Bool)
  | fatal (key : String) (sleeps : Nat) (warned : Bool)
  | outOfFuel
deriving DecidableEq

/-- The `while not os.path.exists(dir)` loop of `_load_trans` (lines 561-578).
`t` counts sleeps since entering the wait, `k` counts sleeps since the last
timer reset (`ts = time_()`).  Each iteration polls, sleeps, and on timeout
expiry (`(k+1) * s > lim`) either raises `ParallelProcessingError` (when
`raise_on_exception`) or warns, forces `raise_on_exception = True` and resets
the timer. -/
def loadWait (cache : Nat → Option A) (s lim : ℚ) (dir : String) :
    Bool → Bool → Nat → Nat → Nat → LoadRes A
  | _, _, _, _, 0 => LoadRes.outOfFuel
  | raise_on_exception, warned, t, k, fuel + 1 =>
      match cache t with
      | some a => LoadRes.loaded a t warned
      | none =>
          if ((k + 1 : Nat) : ℚ) * s > lim then
            if raise_on_exception then LoadRes.fatal dir (t + 1) warned
            else loadWait cache s lim dir true true (t + 1) 0 fuel
          else loadWait cache s lim dir raise_on_exception warned (t + 1) (k + 1) fuel

/-- Embedding of `_load_trans(dir, case, ivals, raise_on_exception)`
(lines 540-580): first try `pickle_load` (succeeds if the file exists now);
on OSError enter the poll loop with the timer started at the current time. -/
def load_trans (cache : Nat → Option A) (s lim : ℚ) (dir : String)
    (raise_on_exception : Bool) (fuel : Nat) : LoadRes A :=
  match cache 0 with
  | some a => LoadRes.loaded a 0 false
  | none => loadWait cache s lim dir raise_on_exception false 0 0 fuel

/-! ## Transform fallback: _transform (estimation.py lines 527-537) -/

/-- Python exceptions relevant to the embedded tasks. -/
inductive PyErr where
  | typeError
  | valueError
  | keyError
  | other (code : Nat)
deriving DecidableEq, Repr

/-- Result of a duck-typed two-argument `transform(x, y)` call: either a
tuple/list `(x', y')` (unpacked by the caller) or a plain `x'`. -/
inductive TRes (X Y : Type) where
  | single (x : X)
  | pair (x : X) (y : Y)
deriving DecidableEq

/-- A (fitted) preprocessing step: the two-argument and the one-argument
forms of its `transform` method; either call may raise. -/
structure Transformer (X Y : Type) where
  transform2 : X → Y → Except PyErr (TRes X Y)
  transform1 : X → Except PyErr X

/-- Embedding of `_transform(tr, x, y)` (lines 527-537): try
`tr.transform(x, y)`, unpacking a tuple/list result; if and only if that call
raises `TypeError`, fall back to `tr.transform(x)` with `y` unchanged.  Any
other exception (from either call) propagates. -/
def transform_xy (tr : Transformer X Y) (x : X) (y : Y) : Except PyErr (X × Y) :=
  match tr.transform2 x y with
  | Except.ok (TRes.pair a b) => Except.ok (a, b)
  | Except.ok (TRes.single a) => Except.ok (a, y)
  | Except.error PyErr.typeError =>
      match tr.transform1 x with
      | Except.ok a => Except.ok (a, y)
      | Except.error e => Except.error e
  | Except.error e => Except.error e

/-- The fit loop of `fit_trans` (lines 444-454): each step is fitted
(`tr.fit(x, y)`, modelled by the opaque `fitT`), and when the case has more
than one step (`len(inst) > 1`, the `multi` flag) the fitted step transforms
the data for the next step via `_transform`.  Returns the `out` list that is
pickled to the cache. -/
def fit_trans_loop (fitT : Transformer X Y → X → Y → Transformer X Y)
    (multi : Bool) :
    List (String × Transformer X Y) → X → Y →
    Except PyErr (List (String × Transformer X Y))
  | [], _, _ => Except.ok []
  | (nm, tr) :: rest, x, y =>
      let tr2 := fitT tr x y
      if multi then
        match transform_xy tr2 x y with
        | Except.ok xy =>
            match fit_trans_loop fitT multi rest xy.1 xy.2 with
            | Except.ok out => Except.ok ((nm, tr2) :: out)
            | Except.error e => Except.error e
        | Except.error e => Except.error e
      else
        match fit_trans_loop fitT multi rest x y with
        | Except.ok out => Except.ok ((nm, tr2) :: out)
        | Except.error e => Except.error e

/-! ## Estimator fit task: fit_est (estimation.py lines 461-517) -/

/-- Exceptions that can escape a `fit_est` task. -/
inductive FitEstErr where
  | processing (key : String)
  | pyerr (e : PyErr)
  | fuelOut
deriving DecidableEq, Repr

/-- The train-side transform loop of `fit_est` (lines 482-483):
`xtrain, ytrain = _transform(tr, xtrain, ytrain)` for every cached step. -/
def transform_train_fold :
    List (String × Transformer X Y) → X → Y → Except PyErr (X × Y)
  | [], x, y => Except.ok (x, y)
  | (_, tr) :: rest, x, y =>
      match transform_xy tr x y with
      | Except.ok xy => transform_train_fold rest xy.1 xy.2
      | Except.error e => Except.error e

/-- The test-side transform loop of `fit_est` (lines 497-498) and of
`predict_est` / `predict_fold_est`: `xtest = tr.transform(xtest)`,
one-argument form only. -/
def transform_test_fold :
    List (String × Transformer X Y) → X → Except PyErr X
  | [], x => Except.ok x
  | (_, tr) :: rest, x =>
      match tr.transform1 x with
      | Except.ok x2 => transform_test_fold rest x2
      | Except.error e => Except.error e

/-- Calling `scorer(ytest, p)`: a `None` scorer is not callable, so the call
raises `TypeError`; otherwise the scorer function itself runs (and may
raise). -/
def scorer_call (scorer : Option (List σ → PredV τ → Except PyErr q))
    (ytest : List σ) (p : PredV τ) : Except PyErr q :=
  match scorer with
  | none => Except.error PyErr.typeError
  | some sc => sc ytest p

/-- The transformer-loading step of `fit_est` (lines 473-478): when
`preprocess`, the case's transformer artifact is retrieved through the
bounded wait (`_load_trans`); a timeout raises `ParallelProcessingError`. -/
def load_trans_step (s lim : ℚ) (fuel : Nat) (f : String)
    (cacheT : Nat → Option (List (String × Transformer X Y)))
    (raise_on_exception preprocess : Bool) :
    Except FitEstErr (List (String × Transformer X Y)) :=
  if preprocess then
    match load_trans cacheT s lim f raise_on_exception fuel with
    | LoadRes.loaded tl _ _ => Except.ok tl
    | LoadRes.fatal key _ _ => Except.error (FitEstErr.processing key)
    | LoadRes.outOfFuel => Except.error FitEstErr.fuelOut
  else Except.ok []

/-- Embedding of `fit_est` (lines 461-517).  Slices the training rows, loads
the case's transformer artifact through the bounded wait when `preprocess`,
transforms and fits, and, when a test partition `tei` is assigned, predicts
on the held-out slice, assigns the predictions into the shared buffer,
scores them (any scorer exception degrades to a `None` score, line 506-509),
and returns the updated buffer together with the cached artifact
`(inst_name, inst, (tei, col), score)` that `pickle_save` persists.
`fitE`/`predE` are the opaque `inst.fit` / `getattr(inst, attr)` calls. -/
def fit_est [Inhabited ρ] [Inhabited σ]
    (s lim : ℚ) (fuel : Nat) (f : String)
    (cacheT : Nat → Option (List (String × Transformer (List ρ) (List σ))))
    (inst_name : String) (inst : E)
    (fitE : E → List ρ → List σ → E)
    (predE : E → List ρ → PredV τ)
    (x : List ρ) (y : List σ) (pred : Buff τ)
    (tri : Option TIdx) (tei : Option TIdx) (col : Nat)
    (raise_on_exception : Bool) (preprocess : Bool)
    (scorer : Option (List σ → PredV τ → Except PyErr q)) :
    Except FitEstErr (Buff τ × String × E × (Option TIdx × Nat) × Option q) :=
  let n := x.length
  let xy := slice_array x (some y) tri 0
  match load_trans_step s lim fuel f cacheT raise_on_exception preprocess with
  | Except.error e => Except.error e
  | Except.ok tr_list =>
      match transform_train_fold tr_list xy.1 (xy.2.getD []) with
      | Except.error e => Except.error (FitEstErr.pyerr e)
      | Except.ok xytr =>
          let fitted := fitE inst xytr.1 xytr.2
          match tei with
          | some t =>
              let xyt := slice_array x (some y) (some t) 0
              match transform_test_fold tr_list xyt.1 with
              | Except.error e => Except.error (FitEstErr.pyerr e)
              | Except.ok xte =>
                  let p := predE fitted xte
                  let pred2 := assign_predictions pred p t col n
                  let sres :=
                    match scorer_call scorer (xyt.2.getD []) p with
                    | Except.ok v => some v
                    | Except.error _ => none
                  Except.ok (pred2, inst_name, fitted, (some t, col), sres)
          | none => Except.ok (pred, inst_name, fitted, (none, col), none)

/-! ## predict / transform entry points (estimation.py lines 206-262)

The entry points first run `_check_fitted`, then `_retrieve`, then submit one
prediction task per fitted estimator to the parallel executor.  The model
returns the list of task descriptors (case, transformer list, instance name,
estimator and target column / fold index); an `Except.error` result means the
call raised before any task was submitted and before any buffer cell was
written. -/

/-- Tasks submitted by `BaseEstimator.predict` (lines 220-230): one
`predict_est(case, tr_list, inst_name, est, ..., col)` per fitted full-data
estimator.  `tr_list = prep[case]` is a dict lookup (KeyError when absent),
or `[]` when the layer has no preprocessing. -/
def predict_task_list (layer : Layer (String × E × (Option TIdx × Nat)) (List T)) :
    Except LayerErr (List (String × List T × String × E × Nat)) :=
  match layer_check_fitted layer with
  | Except.error e => Except.error e
  | Except.ok _ =>
      match layer_retrieve layer "full" with
      | Except.error e => Except.error e
      | Except.ok pe =>
          pe.2.mapM (fun ce =>
            match pe.1 with
            | none => Except.ok (ce.1, [], ce.2.1, ce.2.2.1, ce.2.2.2.2)
            | some pl =>
                match pl.lookup ce.1 with
                | some tl => Except.ok (ce.1, tl, ce.2.1, ce.2.2.1, ce.2.2.2.2)
                | none => Except.error LayerErr.keyError)

/-- Tasks submitted by `BaseEstimator.transform` (lines 249-259): one
`predict_fold_est(case, tr_list, est_name, est, ..., idx)` per fitted
fold estimator. -/
def transform_task_list (layer : Layer (String × E × (Option TIdx × Nat)) (List T)) :
    Except LayerErr
      (List (String × List T × String × E × (Option TIdx × Nat))) :=
  match layer_check_fitted layer with
  | Except.error e => Except.error e
  | Except.ok _ =>
      match layer_retrieve layer "fold" with
      | Except.error e => Except.error e
      | Except.ok pe =>
          pe.2.mapM (fun ce =>
            match pe.1 with
            | none => Except.ok (ce.1, [], ce.2.1, ce.2.2.1, ce.2.2.2)
            | some pl =>
                match pl.lookup ce.1 with
                | some tl => Except.ok (ce.1, tl, ce.2.1, ce.2.2.1, ce.2.2.2)
                | none => Except.error LayerErr.keyError)

/-! ## Score aggregation: BaseEstimator._build_scores (estimation.py lines 98-131)

Python strings are modelled as `List Char` so that the splitting and joining
primitives reduce inside the kernel.  `pySplit s sep` is Python's
`s.split(sep)` for a non-empty separator; `pyJoin` is `sep.join`;
`pyContains s sub` is `sub in s`. -/

/-- The composite-key model of a Python string. -/
abbrev PyStr := List Char

/-- Worker for `pySplit`; `fuel ≥ length of the remaining string` guarantees
the fuel is never exhausted, and the fuel-out fallback agrees with the
end-of-string case so the function is independent of any sufficient fuel. -/
def pySplitAux (sep : PyStr) : Nat → PyStr → PyStr → List PyStr
  | 0, acc, s => [acc.reverse ++ s]
  | fuel + 1, acc, s =>
      if sep.isPrefixOf s ∧ sep ≠ [] then
        acc.reverse :: pySplitAux sep fuel [] (s.drop sep.length)
      else
        match s with
        | [] => [acc.reverse]
        | c :: rest => pySplitAux sep fuel (c :: acc) rest

/-- Python `s.split(sep)` (non-empty `sep`): split on each leftmost,
non-overlapping occurrence of `sep`. -/
def pySplit (s sep : PyStr) : List PyStr := pySplitAux sep (s.length + 1) [] s

/-- Python `sep.join(parts)`. -/
def pyJoin (sep : PyStr) (parts : List PyStr) : PyStr := List.intercalate sep parts

/-- Python `sub in s` (substring containment). -/
def pyContains (s sub : PyStr) : Bool := s.tails.any (fun t => sub.isPrefixOf t)

/-- The `'___'` separator between case name and instance name in a composite
score key (built at estimation.py line 393). -/
def sep3 : PyStr := ['_', '_', '_']

/-- The `'__'` separator inside display names and fold tags. -/
def sep2 : PyStr := ['_', '_']

/-- `'__'.join(est_name.split('__')[:-1])` (line 117): strip the trailing
fold tag from an instance name. -/
def strip_fold_tag (est_name : PyStr) : PyStr :=
  pyJoin sep2 ((pySplit est_name sep2).dropLast)

/-- `case_name.split('__')[0]` (line 122): the first segment of a composite
case name. -/
def first_segment (case_name : PyStr) : PyStr := (pySplit case_name sep2).headD []

/-- Python dict assignment `d[k] = v`: overwrite in place, or append a new
entry (insertion order preserved). -/
def dictSet (d : List (PyStr × A)) (k : PyStr) (v : A) : List (PyStr × A) :=
  if (d.lookup k).isSome then
    d.map (fun p => if p.1 = k then (k, v) else p)
  else d ++ [(k, v)]

/-- Python `d[k].append(v)` on a dict of lists: `none` models the `KeyError`
raised when `k` was never seeded. -/
def dictAppend (d : List (PyStr × List ℚ)) (k : PyStr) (v : ℚ) :
    Option (List (PyStr × List ℚ)) :=
  if (d.lookup k).isSome then
    some (d.map (fun p => if p.1 = k then (p.1, p.2 ++ [v]) else p))
  else none

/-- `np.mean(v)` over exact rationals; `none` models the NaN produced on an
empty list. -/
def npMean (v : List ℚ) : Option ℚ :=
  if v.length = 0 then none else some (v.sum / v.length)

/-- The population variance `np.std(v) ** 2`; `none` models NaN. -/
def npVar (v : List ℚ) : Option ℚ :=
  match npMean v with
  | none => none
  | some m => some ((v.map (fun a => (a - m) ^ 2)).sum / v.length)

/-- `np.std(v)`: the real square root of the population variance. -/
noncomputable def npStd (v : List ℚ) : Option ℝ :=
  (npVar v).map (fun q2 => Real.sqrt q2)

/-- The seeding loop of `_build_scores` (lines 103-111): the first `n_pred`
entries are full-data fits; each key splits as `case_name___est_name` (a
malformed key fails the 2-tuple unpacking, modelled `none`), the display name
is `est_name` for the unnamed case (`case_name == ''`) and
`case_name + '__' + est_name` otherwise, and its score list is seeded
empty. -/
def seed_scores :
    List (PyStr × ℚ) → List (PyStr × List ℚ) → Option (List (PyStr × List ℚ))
  | [], d => some d
  | (k, _) :: rest, d =>
      match pySplit k sep3 with
      | [case_name, est_name] =>
          let name := if case_name = [] then est_name
                      else case_name ++ sep2 ++ est_name
          seed_scores rest (dictSet d name [])
      | _ => none

/-- The fold loop of `_build_scores` (lines 114-125): each remaining entry
strips the trailing fold tag from its instance name; the display name is the
stripped instance name alone when the case name contains no `'__'`, else
`first_segment(case_name) + '__' + stripped name`; the score is appended to
that name's list (KeyError, modelled `none`, when the name was not
seeded). -/
def fold_scores :
    List (PyStr × ℚ) → List (PyStr × List ℚ) → Option (List (PyStr × List ℚ))
  | [], d => some d
  | (k, v) :: rest, d =>
      match pySplit k sep3 with
      | [case_name, est_name0] =>
          let est_name := strip_fold_tag est_name0
          let name := if pyContains case_name sep2 = false then est_name
                      else first_segment case_name ++ sep2 ++ est_name
          match dictAppend d name v with
          | some d2 => fold_scores rest d2
          | none => none
      | _ => none

/-- Embedding of `BaseEstimator._build_scores(s)` (lines 98-131): seed from
the first `n_pred` entries, append the fold scores of the remaining entries,
then reduce every name's list to `(np.mean, np.std)`. -/
noncomputable def build_scores (n_pred : Nat) (s : List (PyStr × ℚ)) :
    Option (List (PyStr × (Option ℚ × Option ℝ))) :=
  match seed_scores (s.take n_pred) [] with
  | none => none
  | some d0 =>
      match fold_scores (s.drop n_pred) d0 with
      | none => none
      | some d => some (d.map (fun p => (p.1, (npMean p.2, npStd p.2))))

/-! ## Claim theorems -/

/-- The gather at the concatenation of the per-range index sequences equals
the concatenation of the per-range slices (all ranges in bounds). -/
theorem gatherD_ranges [Inhabited α] (z : List α) (r : Nat)
    (rs : List (Nat × Nat)) (hz : ∀ p ∈ rs, p.2 - r ≤ z.length) :
    gatherD z (rs.flatMap fun p => natRange (p.1 - r) (p.2 - r))
      = (rs.map (fun p => pySlice z (p.1 - r) (p.2 - r))).join := by
  induction rs with
  | nil => rfl
  | cons p rest ih =>
      have hp : p.2 - r ≤ z.length := hz p (List.mem_cons_self _ _)
      have hrest : ∀ q ∈ rest, q.2 - r ≤ z.length :=
        fun q hq => hz q (List.mem_cons_of_mem _ hq)
      show gatherD z ((p :: rest).flatMap fun p => natRange (p.1 - r) (p.2 - r)) = _
      rw [List.flatMap_cons]
      have happ : gatherD z (natRange (p.1 - r) (p.2 - r)
            ++ rest.flatMap fun q => natRange (q.1 - r) (q.2 - r))
          = gatherD z (natRange (p.1 - r) (p.2 - r))
            ++ gatherD z (rest.flatMap fun q => natRange (q.1 - r) (q.2 - r)) :=
        List.map_append _ _ _
      rw [happ, gatherD_natRange z _ _ hp, ih hrest]
      rfl

/-- C2: Index-algebra slicing.  For every `(X, y)`, index descriptor and row
offset `r`: a `None` descriptor returns `(X, y)` unchanged; a single range
`(a, b)` returns the contiguous slice of rows `a-r` through `b-r-1` of `X`
(and of `y` when present); a descriptor of two or more disjoint ranges
returns the gather of `X` (and `y`) at the concatenation, in range order, of
each range's integer indices shifted down by `r` (stated as the
concatenation, in range order, of the corresponding row slices). -/
theorem claim_C2_slice_array (α β : Type) [Inhabited α] [Inhabited β]
    (x : List α) (y : List β) (r : Nat) :
    (∀ oy : Option (List β), slice_array x oy none r = (x, oy)) ∧
    (∀ a b : Nat, r ≤ a → a ≤ b → b - r ≤ x.length → b - r ≤ y.length →
      ((slice_array x (some y) (some (TIdx.single a b)) r).1.length = b - a ∧
       (∀ i, i < b - a →
         (slice_array x (some y) (some (TIdx.single a b)) r).1.get? i
           = x.get? (a - r + i)) ∧
       (slice_array x (some y) (some (TIdx.single a b)) r).2
           = some (pySlice y (a - r) (b - r)) ∧
       (∀ i, i < b - a →
         (pySlice y (a - r) (b - r)).get? i = y.get? (a - r + i)))) ∧
    (∀ rs : List (Nat × Nat), 2 ≤ rs.length →
      (∀ p ∈ rs, r ≤ p.1 ∧ p.2 - r ≤ x.length ∧ p.2 - r ≤ y.length) →
      ((slice_array x (some y) (some (TIdx.ranges rs)) r).1
          = (rs.map (fun p => pySlice x (p.1 - r) (p.2 - r))).join ∧
       (slice_array x (some y) (some (TIdx.ranges rs)) r).2
          = some ((rs.map (fun p => pySlice y (p.1 - r) (p.2 - r))).join))) := by
  refine ⟨fun oy => rfl, ?_, ?_⟩
  · intro a b hra hab hbx hby
    have hxlen : (pySlice x (a - r) (b - r)).length = (b - r) - (a - r) :=
      pySlice_length x _ _ hbx
    refine ⟨?_, ?_, rfl, ?_⟩
    · show (pySlice x (a - r) (b - r)).length = b - a
      rw [hxlen]; omega
    · intro i hi
      have hi2 : i < (b - r) - (a - r) := by omega
      exact pySlice_get? x (a - r) (b - r) i hi2
    · intro i hi
      have hi2 : i < (b - r) - (a - r) := by omega
      exact pySlice_get? y (a - r) (b - r) i hi2
  · intro rs _ hin
    refine ⟨gatherD_ranges x r rs (fun p hp => (hin p hp).2.1), ?_⟩
    have hy := gatherD_ranges y r rs (fun p hp => (hin p hp).2.2)
    show some (gatherD y (rs.flatMap fun p => natRange (p.1 - r) (p.2 - r))) = _
    exact congrArg some hy

/-- C2 witness: concrete instantiation of the single-range and multi-range
clauses of `claim_C2_slice_array`. -/
theorem claim_C2_witness :
    ((slice_array [10, 20, 30, 40, 50] (some [1, 2, 3, 4, 5])
        (some (TIdx.single 2 4)) 1).1.length = 2) ∧
    ((slice_array [10, 20, 30, 40, 50] (some [1, 2, 3, 4, 5])
        (some (TIdx.ranges [(1, 3), (4, 6)])) 1).1
      = (([(1, 3), (4, 6)] : List (Nat × Nat)).map
          (fun p => pySlice [10, 20, 30, 40, 50] (p.1 - 1) (p.2 - 1))).join) := by
  have h := claim_C2_slice_array Nat Nat [10, 20, 30, 40, 50] [1, 2, 3, 4, 5] 1
  exact ⟨(h.2.1 2 4 (by decide) (by decide) (by decide) (by decide)).1,
         (h.2.2 [(1, 3), (4, 6)] (by decide) (by decide)).1⟩

/-- C10: divergence between the two resolution rules on a one-element nested
descriptor `((a, b),)`.  `_slice_array` tests `len(idx[0]) > 1` — the arity
of the first range, which is always 2 — so it takes the advanced-indexing
(copy) path, although its own comment says this form "can be made into a
simple (a, b) tuple" for a basic-slice view; `_assign_predictions` tests
`len(tei) > 1` and does reduce it to the simple slice.  The selected rows
nevertheless agree. -/
theorem claim_C10_one_range_paths :
    slice_array_path (some (TIdx.ranges [(1, 3)])) = SlicePath.advanced ∧
    assign_path (TIdx.ranges [(1, 3)]) = SlicePath.simple ∧
    (slice_array [10, 20, 30, 40] (some [0, 1, 2, 3])
        (some (TIdx.ranges [(1, 3)])) 0).1
      = (slice_array [10, 20, 30, 40] (some [0, 1, 2, 3])
          (some (TIdx.single 1 3)) 0).1 ∧
    rowsOfSel (assign_resolve (TIdx.ranges [(1, 3)]) 0) 4
      = rowsOfSel (assign_resolve (TIdx.single 1 3) 0) 4 := by
  refine ⟨rfl, by decide, by decide, by decide⟩

/-- C5: y-longer-than-X alignment in `BaseEstimator.fit`.  When `y` has
strictly more rows than `X`, the leading `len(y) - len(X)` rows of `y` are
discarded before any fold slicing; when `len(y) ≤ len(X)`, `y` is
unchanged. -/
theorem claim_C5_y_rebase (α β : Type) (x : List α) (y : List β) :
    (y.length > x.length →
      (fit_y_rebase x y = y.drop (y.length - x.length) ∧
       (fit_y_rebase x y).length = x.length ∧
       ∀ i, (fit_y_rebase x y).get? i = y.get? (y.length - x.length + i))) ∧
    (y.length ≤ x.length → fit_y_rebase x y = y) := by
  constructor
  · intro hgt
    have h1 : fit_y_rebase x y = y.drop (y.length - x.length) := by
      unfold fit_y_rebase
      rw [if_pos hgt]
    refine ⟨h1, ?_, ?_⟩
    · rw [h1, List.length_drop]; omega
    · intro i
      rw [h1, List.get?_drop]
  · intro hle
    unfold fit_y_rebase
    rw [if_neg (by omega)]

/-- C5 witness: `X` of length 7 with `y` of length 10 behaves as `y[3:]`
(length 7, starting at the fourth row); a `y` no longer than `X` is kept. -/
theorem claim_C5_witness :
    (fit_y_rebase [0, 1, 2, 3, 4, 5, 6] [0, 1, 2, 3, 4, 5, 6, 7, 8, 9]).length = 7 ∧
    (fit_y_rebase [0, 1, 2, 3, 4, 5, 6] [0, 1, 2, 3, 4, 5, 6, 7, 8, 9]).get? 0
      = some 3 ∧
    fit_y_rebase [0, 1] [5, 6] = [5, 6] := by
  have h := claim_C5_y_rebase Nat Nat [0, 1, 2, 3, 4, 5, 6]
    [0, 1, 2, 3, 4, 5, 6, 7, 8, 9]
  have h2 := (claim_C5_y_rebase Nat Nat [0, 1] [5, 6]).2 (by decide)
  refine ⟨(h.1 (by decide)).2.1, ?_, h2⟩
  have h3 := (h.1 (by decide)).2.2 0
  simpa using h3

/-- C7: fitted-artifact retrieval by mode.  `"full"` returns the first
`n_pred` fitted estimators and the full-data preprocessing pipelines (`none`
when the layer has no preprocessing); `"fold"` returns the estimators after
the first `n_pred` and the preprocessing pipelines after the full-data ones;
any other mode string raises `ValueError` immediately. -/
theorem claim_C7_retrieve (E P : Type) (layer : Layer E P) :
    (∀ ests, layer.estimators_ = some ests →
      (layer_retrieve layer "full"
          = Except.ok (layer.preprocessing_.map (fun l => l.take (max layer.n_prep 1)),
                       ests.take layer.n_pred) ∧
       layer_retrieve layer "fold"
          = Except.ok (layer.preprocessing_.map (fun l => l.drop (max layer.n_prep 1)),
                       ests.drop layer.n_pred))) ∧
    (∀ ests, layer.estimators_ = some ests → layer.preprocessing_ = none →
      layer_retrieve layer "full" = Except.ok (none, ests.take layer.n_pred)) ∧
    (∀ s : String, s ≠ "full" → s ≠ "fold" →
      layer_retrieve layer s = Except.error LayerErr.valueError) := by
  refine ⟨?_, ?_, ?_⟩
  · intro ests hests
    constructor
    · unfold layer_retrieve
      rw [if_pos rfl, hests]
    · unfold layer_retrieve
      rw [if_neg (by decide), if_pos rfl, hests]
  · intro ests hests hprep
    unfold layer_retrieve
    rw [if_pos rfl, hests, hprep]
    rfl
  · intro s hs1 hs2
    unfold layer_retrieve
    rw [if_neg hs1, if_neg hs2]

/-- C7 witness: concrete retrieval in both modes and rejection of a bad mode
string. -/
theorem claim_C7_witness :
    (layer_retrieve (Layer.mk 1 1 (some [("a", 10), ("b", 20)])
        (some [("a", 5), ("b", 6)])) "full"
      = Except.ok (some [("a", 5)], [("a", 10)])) ∧
    (layer_retrieve (Layer.mk 1 1 (some [("a", 10), ("b", 20)])
        (some [("a", 5), ("b", 6)])) "fold"
      = Except.ok (some [("b", 6)], [("b", 20)])) ∧
    (layer_retrieve (Layer.mk 1 1 (some [("a", 10), ("b", 20)])
        (some [("a", 5), ("b", 6)])) "bar"
      = Except.error LayerErr.valueError) := by
  have h := claim_C7_retrieve Nat Nat
    (Layer.mk 1 1 (some [("a", 10), ("b", 20)]) (some [("a", 5), ("b", 6)]))
  have h1 := (h.1 [("a", 10), ("b", 20)] rfl).1
  have h2 := (h.1 [("a", 10), ("b", 20)] rfl).2
  have h3 := h.2.2 "bar" (by decide) (by decide)
  exact ⟨h1, h2, h3⟩

/-- C8: unfitted-state access.  `predict` and `transform` on a layer with no
fitted-estimator attribute raise `NotFittedError`, and on a layer whose
fitted-estimator list exists but is empty also raise `NotFittedError`; in
both cases the entry point returns the error instead of a task list, so no
prediction task is submitted and no buffer cell is written. -/
theorem claim_C8_unfitted (E T : Type)
    (layer : Layer (String × E × (Option TIdx × Nat)) (List T)) :
    (layer.estimators_ = none →
      (predict_task_list layer = Except.error (LayerErr.notFitted "estimators_") ∧
       transform_task_list layer = Except.error (LayerErr.notFitted "estimators_"))) ∧
    (layer.estimators_ = some [] →
      (predict_task_list layer
          = Except.error (LayerErr.notFitted "No estimators successfully fitted.") ∧
       transform_task_list layer
          = Except.error (LayerErr.notFitted "No estimators successfully fitted."))) := by
  constructor
  · intro hnone
    have hc : layer_check_fitted layer
        = Except.error (LayerErr.notFitted "estimators_") := by
      unfold layer_check_fitted check_is_fitted
      rw [hnone]
    constructor
    · unfold predict_task_list
      rw [hc]
    · unfold transform_task_list
      rw [hc]
  · intro hempty
    have hc : layer_check_fitted layer
        = Except.error (LayerErr.notFitted "No estimators successfully fitted.") := by
      unfold layer_check_fitted check_is_fitted
      rw [hempty]
      rfl
    constructor
    · unfold predict_task_list
      rw [hc]
    · unfold transform_task_list
      rw [hc]

/-- C8 witness: the two unfitted layers, concretely. -/
theorem claim_C8_witness :
    (predict_task_list (Layer.mk 0 0 none none
        : Layer (String × Nat × (Option TIdx × Nat)) (List Nat))
      = Except.error (LayerErr.notFitted "estimators_")) ∧
    (transform_task_list (Layer.mk 0 0 (some []) none
        : Layer (String × Nat × (Option TIdx × Nat)) (List Nat))
      = Except.error (LayerErr.notFitted "No estimators successfully fitted.")) := by
  have h1 := (claim_C8_unfitted Nat Nat (Layer.mk 0 0 none none)).1 rfl
  have h2 := (claim_C8_unfitted Nat Nat (Layer.mk 0 0 (some []) none)).2 rfl
  exact ⟨h1.1, h2.2⟩

/-- A basic slice whose end is inside the buffer addresses exactly the
arithmetic row range (clamping vanishes). -/
theorem sliceIdx_eq_natRange (a b R : Nat) (h : b ≤ R) :
    sliceIdx a b R = natRange a b := by
  apply List.ext_get?
  intro i
  by_cases hi : i < b - a
  · unfold sliceIdx natRange
    rw [List.get?_take hi, List.get?_drop, List.get?_range' _ _ hi,
        List.get?_range (by omega)]
    norm_num
  · have h1 : (sliceIdx a b R).length ≤ b - a := by
      simp [sliceIdx]
    have h2 : (natRange a b).length = b - a := by simp [natRange]
    rw [List.get?_eq_none.2, List.get?_eq_none.2] <;> omega

/-- C3: prediction assembly.  With row offset `r = n - buf.rows` and the
descriptor resolved by `_assign_predictions`' rule to the row list `rows`:
a 1-D prediction writes its `k`-th value into `(rows k, col)` and changes no
other cell; a 2-D prediction of width `w` writes its `(k, j)` entry into
`(rows k, col + j)` and changes no cell outside `rows × [col, col + w)`.
An in-bounds single range resolves to the contiguous shifted row range, and
a multi-range descriptor to the concatenation of the shifted ranges. -/
theorem claim_C3_assign_predictions (τ : Type) (buf : Buff τ) (tei : TIdx)
    (col n : Nat) :
    (∀ v : List τ,
      v.length = (rowsOfSel (assign_resolve tei (n - buf.rows)) buf.rows).length →
      (rowsOfSel (assign_resolve tei (n - buf.rows)) buf.rows).Nodup →
      ((assign_predictions buf (PredV.one v) tei col n).rows = buf.rows ∧
       (∀ iv ∈ (rowsOfSel (assign_resolve tei (n - buf.rows)) buf.rows).zip v,
         (assign_predictions buf (PredV.one v) tei col n).data iv.1 col = iv.2) ∧
       (∀ i j, i ∉ rowsOfSel (assign_resolve tei (n - buf.rows)) buf.rows ∨ j ≠ col →
         (assign_predictions buf (PredV.one v) tei col n).data i j = buf.data i j))) ∧
    (∀ (m : List (List τ)) (w : Nat),
      m.length = (rowsOfSel (assign_resolve tei (n - buf.rows)) buf.rows).length →
      (∀ row ∈ m, row.length = w) →
      (rowsOfSel (assign_resolve tei (n - buf.rows)) buf.rows).Nodup →
      ((assign_predictions buf (PredV.two m) tei col n).rows = buf.rows ∧
       (∀ im ∈ (rowsOfSel (assign_resolve tei (n - buf.rows)) buf.rows).zip m,
         ∀ jv ∈ im.2.enum,
         (assign_predictions buf (PredV.two m) tei col n).data im.1 (col + jv.1)
           = jv.2) ∧
       (∀ i j, i ∉ rowsOfSel (assign_resolve tei (n - buf.rows)) buf.rows ∨
               j < col ∨ col + w ≤ j →
         (assign_predictions buf (PredV.two m) tei col n).data i j = buf.data i j))) ∧
    (∀ a b : Nat, tei = TIdx.single a b → b - (n - buf.rows) ≤ buf.rows →
      rowsOfSel (assign_resolve tei (n - buf.rows)) buf.rows
        = natRange (a - (n - buf.rows)) (b - (n - buf.rows))) ∧
    (∀ rs, tei = TIdx.ranges rs → 1 < rs.length →
      rowsOfSel (assign_resolve tei (n - buf.rows)) buf.rows
        = rs.flatMap (fun p => natRange (p.1 - (n - buf.rows)) (p.2 - (n - buf.rows)))) := by
  set r := n - buf.rows with hr
  set rows := rowsOfSel (assign_resolve tei r) buf.rows with hrows
  refine ⟨?_, ?_, ?_, ?_⟩
  · -- 1-D clause
    intro v hlen hnd
    have hcells : (assign_predictions buf (PredV.one v) tei col n)
        = ⟨buf.rows, writeCells buf.data
            ((rows.zip v).map (fun iv => ((iv.1, col), iv.2)))⟩ := rfl
    have hfst : ((rows.zip v).map (fun iv => ((iv.1, col), iv.2))).map Prod.fst
        = rows.map (fun i => (i, col)) := by
      rw [List.map_map]
      have : (Prod.fst ∘ fun iv : Nat × τ => ((iv.1, col), iv.2))
          = (fun i : Nat => (i, col)) ∘ Prod.fst := rfl
      rw [this, ← List.map_map, List.map_fst_zip _ _ (by omega)]
    have hndf : (((rows.zip v).map (fun iv => ((iv.1, col), iv.2))).map Prod.fst).Nodup := by
      rw [hfst]
      exact hnd.map (fun a b hab => congrArg Prod.fst hab)
    refine ⟨rfl, ?_, ?_⟩
    · intro iv hiv
      rw [hcells]
      exact writeCells_mem _ _ _ _ _ hndf
        (List.mem_map_of_mem (fun iv => ((iv.1, col), iv.2)) hiv)
    · intro i j hij
      rw [hcells]
      apply writeCells_not_mem
      rw [hfst]
      intro hmem
      rcases List.mem_map.1 hmem with ⟨u, hu, huv⟩
      obtain ⟨h1, h2⟩ := Prod.mk.inj huv
      rcases hij with hi | hj
      · exact hi (h1 ▸ hu)
      · exact hj h2.symm
  · -- 2-D clause
    intro m w hlen hw hnd
    have hcells : (assign_predictions buf (PredV.two m) tei col n)
        = ⟨buf.rows, writeCells buf.data
            ((rows.zip m).flatMap (fun im => im.2.enum.map
              (fun jv => ((im.1, col + jv.1), jv.2))))⟩ := rfl
    have hfst : ((rows.zip m).flatMap (fun im => im.2.enum.map
          (fun jv => ((im.1, col + jv.1), jv.2)))).map Prod.fst
        = (rows.zip m).flatMap (fun im => im.2.enum.map
            (fun jv => (im.1, col + jv.1))) := by
      rw [List.map_flatMap]
      apply congrArg
      funext im
      rw [List.map_map]
      rfl
    have hinner : ∀ im : Nat × List τ,
        im.2.enum.map (fun jv => (im.1, col + jv.1))
          = (List.range im.2.length).map (fun idx => (im.1, col + idx)) := by
      intro im
      rw [← List.enum_map_fst im.2, List.map_map]
      rfl
    have hndf : (((rows.zip m).flatMap (fun im => im.2.enum.map
          (fun jv => ((im.1, col + jv.1), jv.2)))).map Prod.fst).Nodup := by
      rw [hfst]
      rw [List.nodup_bind]
      constructor
      · intro im _
        rw [hinner im]
        exact (List.nodup_range _).map
          (fun a b hab => by
            obtain ⟨h1, h2⟩ := Prod.mk.inj hab
            omega)
      · have hfstrows : (rows.zip m).map Prod.fst = rows :=
          List.map_fst_zip _ _ (by omega)
        have hpair : List.Pairwise (fun a b : Nat × List τ => a.1 ≠ b.1)
            (rows.zip m) := by
          have := hnd
          rw [← hfstrows] at this
          exact List.pairwise_map.1 this
        apply hpair.imp
        intro a b hab
        intro z hza hzb
        rcases List.mem_map.1 hza with ⟨jv1, _, h1⟩
        rcases List.mem_map.1 hzb with ⟨jv2, _, h2⟩
        apply hab
        obtain ⟨ha1, _⟩ := Prod.mk.inj h1
        obtain ⟨hb1, _⟩ := Prod.mk.inj h2
        rw [ha1, hb1]
    refine ⟨rfl, ?_, ?_⟩
    · intro im him jv hjv
      rw [hcells]
      apply writeCells_mem _ _ _ _ _ hndf
      exact List.mem_flatMap.2 ⟨im, him,
        List.mem_map_of_mem (fun jv => ((im.1, col + jv.1), jv.2)) hjv⟩
    · intro i j hij
      rw [hcells]
      apply writeCells_not_mem
      rw [hfst]
      intro hmem
      rcases List.mem_flatMap.1 hmem with ⟨im, him, hin⟩
      rcases List.mem_map.1 hin with ⟨jv, hjv, hje⟩
      obtain ⟨hie, hje2⟩ := Prod.mk.inj hje
      have hi : i = im.1 := hie.symm
      have hj : j = col + jv.1 := hje2.symm
      have hjlt : jv.1 < im.2.length := by
        have := List.mem_enum_iff_get?.1 hjv
        rcases List.get?_eq_some.1 this with ⟨hlt, _⟩
        exact hlt
      have hwim : im.2.length = w := hw im.2 (List.mem_zip him).2
      rcases hij with hi2 | hj2 | hj3
      · exact hi2 (by rw [hi]; exact (List.mem_zip him).1)
      · omega
      · omega
  · -- single-range resolution
    intro a b hteq hb
    rw [hrows, hteq]
    unfold assign_resolve rowsOfSel
    exact sliceIdx_eq_natRange _ _ _ hb
  · -- multi-range resolution
    intro rs hteq hlen
    rw [hrows, hteq]
    simp only [assign_resolve, gt_iff_lt]
    rw [if_pos hlen]
    rfl

/-- C3 witness: a buffer of 4 rows inside a 7-row dataset (`r = 3`), a 1-D
prediction `[7, 8]` for test range `(5, 7)` written into column 1: rows 2 and
3 of column 1 receive the values, an untouched cell keeps its. -/
theorem claim_C3_witness :
    ((assign_predictions (Buff.mk 4 (fun _ _ => 0)) (PredV.one [7, 8])
        (TIdx.single 5 7) 1 7).data 2 1 = 7) ∧
    ((assign_predictions (Buff.mk 4 (fun _ _ => 0)) (PredV.one [7, 8])
        (TIdx.single 5 7) 1 7).data 3 1 = 8) ∧
    ((assign_predictions (Buff.mk 4 (fun _ _ => 0)) (PredV.one [7, 8])
        (TIdx.single 5 7) 1 7).data 1 1 = 0) := by
  have h := (claim_C3_assign_predictions Nat (Buff.mk 4 (fun _ _ => 0))
    (TIdx.single 5 7) 1 7).1 [7, 8] (by decide) (by decide)
  exact ⟨h.2.1 (2, 7) (by decide), h.2.1 (3, 8) (by decide),
         h.2.2 1 1 (Or.inl (by decide))⟩

/-- If the file stays absent for a whole timeout window and
`raise_on_exception` is set, the wait loop raises at the expiry: with `k`
sleeps already counted since the timer reset, it raises after `N - k` further
sleeps, where `N` is the least poll count whose elapsed time exceeds the
limit. -/
theorem loadWait_expire_raise (A : Type) (c : Nat → Option A) (s lim : ℚ)
    (dir : String) (N : Nat) (hN : lim < (N : ℚ) * s)
    (hNmin : ∀ m : Nat, m < N → (m : ℚ) * s ≤ lim) :
    ∀ (fuel k t : Nat) (w : Bool), k < N → N - k ≤ fuel →
      (∀ u, t ≤ u → u < t + (N - k) → c u = none) →
      loadWait c s lim dir true w t k fuel = LoadRes.fatal dir (t + (N - k)) w := by
  intro fuel
  induction fuel with
  | zero => intro k t w hk hfuel _; omega
  | succ fuel ih =>
      intro k t w hk hfuel hnone
      have hct : c t = none := hnone t le_rfl (by omega)
      by_cases hk1 : k + 1 = N
      · have hcond : lim < ((k + 1 : Nat) : ℚ) * s := by
          rw [hk1]; exact hN
        simp only [loadWait, hct, if_pos hcond, if_true]
        have : t + (N - k) = t + 1 := by omega
        rw [this]
      · have hlt : k + 1 < N := by omega
        have hcond : ¬ (lim < ((k + 1 : Nat) : ℚ) * s) :=
          not_lt.2 (hNmin (k + 1) hlt)
        simp only [loadWait, hct, if_neg hcond]
        have harith : t + (N - k) = (t + 1) + (N - (k + 1)) := by omega
        rw [harith]
        exact ih (k + 1) (t + 1) w hlt (by omega)
          (fun u hu1 hu2 => hnone u (by omega) (by omega))

/-- If the file stays absent for a whole timeout window and
`raise_on_exception` is clear, the wait loop warns at the expiry, forces
`raise_on_exception` for the rest of the wait, resets the timer and keeps
polling. -/
theorem loadWait_expire_grace (A : Type) (c : Nat → Option A) (s lim : ℚ)
    (dir : String) (N : Nat) (hN : lim < (N : ℚ) * s)
    (hNmin : ∀ m : Nat, m < N → (m : ℚ) * s ≤ lim) :
    ∀ (fuel k t : Nat) (w : Bool), k < N → N - k ≤ fuel →
      (∀ u, t ≤ u → u < t + (N - k) → c u = none) →
      loadWait c s lim dir false w t k fuel
        = loadWait c s lim dir true true (t + (N - k)) 0 (fuel - (N - k)) := by
  intro fuel
  induction fuel with
  | zero => intro k t w hk hfuel _; omega
  | succ fuel ih =>
      intro k t w hk hfuel hnone
      have hct : c t = none := hnone t le_rfl (by omega)
      by_cases hk1 : k + 1 = N
      · have hcond : lim < ((k + 1 : Nat) : ℚ) * s := by
          rw [hk1]; exact hN
        simp only [loadWait, hct, if_pos hcond]
        have h1 : t + (N - k) = t + 1 := by omega
        have h2 : fuel + 1 - (N - k) = fuel := by omega
        rw [h1, h2]
        rfl
      · have hlt : k + 1 < N := by omega
        have hcond : ¬ (lim < ((k + 1 : Nat) : ℚ) * s) :=
          not_lt.2 (hNmin (k + 1) hlt)
        simp only [loadWait, hct, if_neg hcond]
        have h1 : t + (N - k) = (t + 1) + (N - (k + 1)) := by omega
        have h2 : fuel + 1 - (N - k) = fuel - (N - (k + 1)) := by omega
        rw [h1, h2]
        exact ih (k + 1) (t + 1) w hlt (by omega)
          (fun u hu1 hu2 => hnone u (by omega) (by omega))

/-- If the file appears at poll `T` before the current window expires, the
wait loop returns the artifact at that poll, with the warning flag it entered
the window with. -/
theorem loadWait_reach (A : Type) (c : Nat → Option A) (s lim : ℚ)
    (dir : String) (N : Nat)
    (hNmin : ∀ m : Nat, m < N → (m : ℚ) * s ≤ lim) :
    ∀ (fuel k t T : Nat) (w r : Bool) (a : A), k < N → t ≤ T →
      T - t ≤ N - 1 - k → T - t < fuel →
      (∀ u, t ≤ u → u < T → c u = none) → c T = some a →
      loadWait c s lim dir r w t k fuel = LoadRes.loaded a T w := by
  intro fuel
  induction fuel with
  | zero => intro k t T w r a _ _ _ hfuel _ _; omega
  | succ fuel ih =>
      intro k t T w r a hk ht hwin hfuel hnone hca
      by_cases htT : t = T
      · subst htT
        simp only [loadWait, hca]
      · have htlt : t < T := by omega
        have hct : c t = none := hnone t le_rfl htlt
        have hlt : k + 1 < N := by omega
        have hcond : ¬ (lim < ((k + 1 : Nat) : ℚ) * s) :=
          not_lt.2 (hNmin (k + 1) hlt)
        simp only [loadWait, hct, if_neg hcond]
        exact ih (k + 1) (t + 1) T w r a hlt (by omega) (by omega) (by omega)
          (fun u hu1 hu2 => hnone u (by omega) hu2) hca

/-- C1: bounded-wait retrieval of a transformer artifact.  `N` is the number
of polls in one timeout window (the least `m` with `m * s > lim`).  When the
file never appears: with `raiseOnException` set the wait fails fatally with
`ParallelProcessingError` naming the missing key after one window (`N`
sleeps, no warning); with it unset the first expiry warns, forces
`raiseOnException` for the rest of the wait and resets the timer, and the
second expiry after another full window is fatal (`2 N` sleeps, warned).
When the file appears at poll `T` inside the first window the artifact is
returned un-warned; when it appears inside the grace window (`N ≤ T < 2 N`,
`raiseOnException` unset) polling has continued and the artifact is returned
after the single warning. -/
theorem claim_C1_load_trans (A : Type) (dir : String) (s lim : ℚ) (N : Nat)
    (hs : 0 < s) (hlim : 0 ≤ lim) (hN : lim < (N : ℚ) * s)
    (hNmin : ∀ m : Nat, m < N → (m : ℚ) * s ≤ lim) :
    (∀ fuel, N ≤ fuel →
       load_trans (fun _ => (none : Option A)) s lim dir true fuel
         = LoadRes.fatal dir N false) ∧
    (∀ fuel, 2 * N ≤ fuel →
       load_trans (fun _ => (none : Option A)) s lim dir false fuel
         = LoadRes.fatal dir (2 * N) true) ∧
    (∀ (a : A) (T fuel : Nat) (r : Bool), T < N → T < fuel →
       load_trans (fun u => if u = T then some a else none) s lim dir r fuel
         = LoadRes.loaded a T false) ∧
    (∀ (a : A) (T fuel : Nat), N ≤ T → T < 2 * N → T < fuel →
       load_trans (fun u => if u = T then some a else none) s lim dir false fuel
         = LoadRes.loaded a T true) := by
  have hN0 : 0 < N := by
    by_contra h
    have : N = 0 := by omega
    rw [this] at hN
    push_cast at hN
    simp at hN
    exact absurd hN (not_lt.2 hlim)
  refine ⟨?_, ?_, ?_, ?_⟩
  · intro fuel hfuel
    show loadWait (fun _ => (none : Option A)) s lim dir true false 0 0 fuel
        = LoadRes.fatal dir N false
    have h := loadWait_expire_raise A (fun _ => none) s lim dir N hN hNmin
      fuel 0 0 false hN0 (by omega) (fun u _ _ => rfl)
    simpa using h
  · intro fuel hfuel
    show loadWait (fun _ => (none : Option A)) s lim dir false false 0 0 fuel
        = LoadRes.fatal dir (2 * N) true
    have h1 := loadWait_expire_grace A (fun _ => none) s lim dir N hN hNmin
      fuel 0 0 false hN0 (by omega) (fun u _ _ => rfl)
    have h2 := loadWait_expire_raise A (fun _ => none) s lim dir N hN hNmin
      (fuel - N) 0 N true hN0 (by omega) (fun u _ _ => rfl)
    simp only [Nat.sub_zero, Nat.zero_add] at h1 h2
    rw [h1, h2]
    have : N + N = 2 * N := by omega
    rw [this]
  · intro a T fuel r hT hfuel
    by_cases hT0 : T = 0
    · subst hT0
      show load_trans (fun u => if u = 0 then some a else none) s lim dir r fuel
          = LoadRes.loaded a 0 false
      unfold load_trans
      norm_num
    · have hc0 : (fun u => if u = T then some a else none) 0 = (none : Option A) := by
        simp [Ne.symm hT0]
      show load_trans (fun u => if u = T then some a else none) s lim dir r fuel
          = LoadRes.loaded a T false
      unfold load_trans
      rw [hc0]
      have h := loadWait_reach A (fun u => if u = T then some a else none)
        s lim dir N hNmin fuel 0 0 T false r a hN0 (by omega) (by omega) (by omega)
        (fun u _ hu => by simp [Nat.ne_of_lt hu]) (by simp)
      simpa using h
  · intro a T fuel hTN hT2N hfuel
    have hT0 : T ≠ 0 := by omega
    have hc0 : (fun u => if u = T then some a else none) 0 = (none : Option A) := by
      simp [Ne.symm hT0]
    show load_trans (fun u => if u = T then some a else none) s lim dir false fuel
        = LoadRes.loaded a T true
    unfold load_trans
    rw [hc0]
    have h1 := loadWait_expire_grace A (fun u => if u = T then some a else none)
      s lim dir N hN hNmin fuel 0 0 false hN0 (by omega)
      (fun u _ hu => by
        have : u < N := by simpa using hu
        simp [Nat.ne_of_lt (by omega : u < T)])
    have h2 := loadWait_reach A (fun u => if u = T then some a else none)
      s lim dir N hNmin (fuel - N) 0 N T true true a hN0 (by omega) (by omega)
      (by omega) (fun u hu1 hu2 => by simp [Nat.ne_of_lt hu2]) (by simp)
    simp only [Nat.sub_zero, Nat.zero_add] at h1 h2
    rw [h1, h2]

/-- C1 witness: interval `s = 1`, limit `lim = 2`, so a window is `N = 3`
polls: with `raiseOnException` the wait is fatal after 3 sleeps un-warned;
without it, fatal after 6 sleeps having warned once; an artifact appearing at
poll 4 (inside the grace window) is still loaded, after the warning. -/
theorem claim_C1_witness :
    (load_trans (fun _ => (none : Option Unit)) 1 2 "key" true 3
      = LoadRes.fatal "key" 3 false) ∧
    (load_trans (fun _ => (none : Option Unit)) 1 2 "key" false 6
      = LoadRes.fatal "key" 6 true) ∧
    (load_trans (fun u => if u = 4 then some () else none) 1 2 "key" false 10
      = LoadRes.loaded () 4 true) := by
  have h := claim_C1_load_trans Unit "key" 1 2 3 (by norm_num) (by norm_num)
    (by norm_num)
    (by
      intro m hm
      interval_cases m <;> norm_num)
  exact ⟨h.1 3 le_rfl, h.2.1 6 (by norm_num), h.2.2.2 () 4 10 (by norm_num)
    (by norm_num) (by norm_num)⟩

/-- C9: transform-call fallback.  Every application first calls the
two-argument `transform(x, y)`; a tuple/list result is unpacked into
`(x, y)`, a plain result replaces `x` only; if and only if the two-argument
call raises `TypeError` does it fall back to `transform(x)` with `y` passed
through unchanged (any other exception propagates); and the probe is made
afresh on every invocation — a `TypeError` on one call does not force the
fallback on another call, and in the fit loop a later step still probes its
own two-argument form after an earlier step fell back. -/
theorem claim_C9_transform_fallback (X Y : Type) :
    (∀ (tr : Transformer X Y) (x : X) (y : Y) (a : X) (b : Y),
       tr.transform2 x y = Except.ok (TRes.pair a b) →
       transform_xy tr x y = Except.ok (a, b)) ∧
    (∀ (tr : Transformer X Y) (x : X) (y : Y) (a : X),
       tr.transform2 x y = Except.ok (TRes.single a) →
       transform_xy tr x y = Except.ok (a, y)) ∧
    (∀ (tr : Transformer X Y) (x : X) (y : Y),
       tr.transform2 x y = Except.error PyErr.typeError →
       transform_xy tr x y = (tr.transform1 x).map (fun a => (a, y))) ∧
    (∀ (tr : Transformer X Y) (x : X) (y : Y) (e : PyErr),
       tr.transform2 x y = Except.error e → e ≠ PyErr.typeError →
       transform_xy tr x y = Except.error e) ∧
    (∀ (tr : Transformer X Y) (x1 : X) (y1 : Y) (x2 : X) (y2 : Y) (a : X),
       tr.transform2 x1 y1 = Except.error PyErr.typeError →
       tr.transform2 x2 y2 = Except.ok (TRes.single a) →
       (transform_xy tr x1 y1 = (tr.transform1 x1).map (fun c => (c, y1)) ∧
        transform_xy tr x2 y2 = Except.ok (a, y2))) ∧
    (∀ (fitT : Transformer X Y → X → Y → Transformer X Y) (n1 n2 : String)
       (tr1 tr2 : Transformer X Y) (x : X) (y : Y) (x1 : X) (a2 : X) (b2 : Y),
       (fitT tr1 x y).transform2 x y = Except.error PyErr.typeError →
       (fitT tr1 x y).transform1 x = Except.ok x1 →
       (fitT tr2 x1 y).transform2 x1 y = Except.ok (TRes.pair a2 b2) →
       fit_trans_loop fitT true [(n1, tr1), (n2, tr2)] x y
         = Except.ok [(n1, fitT tr1 x y), (n2, fitT tr2 x1 y)]) := by
  have hfall : ∀ (tr : Transformer X Y) (x : X) (y : Y),
      tr.transform2 x y = Except.error PyErr.typeError →
      transform_xy tr x y = (tr.transform1 x).map (fun a => (a, y)) := by
    intro tr x y h
    unfold transform_xy
    rw [h]
    cases htr : tr.transform1 x <;> simp [Except.map]
  refine ⟨?_, ?_, hfall, ?_, ?_, ?_⟩
  · intro tr x y a b h
    unfold transform_xy
    rw [h]
  · intro tr x y a h
    unfold transform_xy
    rw [h]
  · intro tr x y e h hne
    unfold transform_xy
    rw [h]
    cases e with
    | typeError => exact absurd rfl hne
    | valueError => rfl
    | keyError => rfl
    | other c => rfl
  · intro tr x1 y1 x2 y2 a h1 h2
    refine ⟨hfall tr x1 y1 h1, ?_⟩
    unfold transform_xy
    rw [h2]
  · intro fitT n1 n2 tr1 tr2 x y x1 a2 b2 h1 h1f h2
    have ht1 : transform_xy (fitT tr1 x y) x y = Except.ok (x1, y) := by
      rw [hfall (fitT tr1 x y) x y h1, h1f]
      rfl
    have ht2 : transform_xy (fitT tr2 x1 y) x1 y = Except.ok (a2, b2) := by
      unfold transform_xy
      rw [h2]
    simp only [fit_trans_loop, if_true, ht1, ht2]

/-- C9 witness: a transformer whose two-argument form raises `TypeError`
falls back to the one-argument form, and a later step in the same fit loop
still uses its own two-argument form. -/
theorem claim_C9_witness :
    (transform_xy (Transformer.mk (fun _ _ => Except.error PyErr.typeError)
        (fun x => Except.ok (x + 1))) 10 20 = Except.ok (11, 20)) ∧
    (fit_trans_loop (fun tr _ _ => tr) true
        [("t1", Transformer.mk (fun _ _ => Except.error PyErr.typeError)
            (fun x => Except.ok (x + 1))),
         ("t2", Transformer.mk (fun x y => Except.ok (TRes.pair (x * 2) (y : Nat)))
            (fun x => Except.ok x))] 10 20
      = Except.ok [("t1", Transformer.mk (fun _ _ => Except.error PyErr.typeError)
            (fun x => Except.ok (x + 1))),
          ("t2", Transformer.mk (fun x y => Except.ok (TRes.pair (x * 2) y))
            (fun x => Except.ok x))]) := by
  have h := claim_C9_transform_fallback Nat Nat
  constructor
  · have h3 := h.2.2.1 (Transformer.mk (fun _ _ => Except.error PyErr.typeError)
      (fun x => Except.ok (x + 1))) 10 20 rfl
    simpa using h3
  · exact h.2.2.2.2.2 (fun tr _ _ => tr) "t1" "t2"
      (Transformer.mk (fun _ _ => Except.error PyErr.typeError)
        (fun x => Except.ok (x + 1)))
      (Transformer.mk (fun x y => Except.ok (TRes.pair (x * 2) y))
        (fun x => Except.ok x)) 10 20 11 22 20 rfl rfl rfl

/-- C6: scorer failure is fully recovered locally.  For an estimator fit task
with an assigned test partition, replacing the scorer by one whose call
raises (any exception, on any input) changes nothing but the recorded score,
which becomes `None`: the task completes exactly when it would otherwise
complete, the buffer writes and the cached artifact are identical, and the
scorer exception never escapes the task. -/
theorem claim_C6_scorer_failure (ρ σ τ q E : Type) [Inhabited ρ] [Inhabited σ]
    (s lim : ℚ) (fuel : Nat) (f : String)
    (cacheT : Nat → Option (List (String × Transformer (List ρ) (List σ))))
    (inst_name : String) (inst : E)
    (fitE : E → List ρ → List σ → E) (predE : E → List ρ → PredV τ)
    (x : List ρ) (y : List σ) (pred : Buff τ)
    (tri : Option TIdx) (t : TIdx) (col : Nat)
    (raise_on_exception preprocess : Bool)
    (sc1 sc2 : List σ → PredV τ → Except PyErr q)
    (hfail : ∀ yt p, ∃ e, sc1 yt p = Except.error e) :
    (fit_est s lim fuel f cacheT inst_name inst fitE predE x y pred tri (some t)
        col raise_on_exception preprocess (some sc1)
      = (fit_est s lim fuel f cacheT inst_name inst fitE predE x y pred tri
          (some t) col raise_on_exception preprocess (some sc2)).map
          (fun out => (out.1, out.2.1, out.2.2.1, out.2.2.2.1, none))) ∧
    (∀ out, fit_est s lim fuel f cacheT inst_name inst fitE predE x y pred tri
        (some t) col raise_on_exception preprocess (some sc1) = Except.ok out →
      out.2.2.2.2 = none) := by
  have hmain : fit_est s lim fuel f cacheT inst_name inst fitE predE x y pred tri
        (some t) col raise_on_exception preprocess (some sc1)
      = (fit_est s lim fuel f cacheT inst_name inst fitE predE x y pred tri
          (some t) col raise_on_exception preprocess (some sc2)).map
          (fun out => (out.1, out.2.1, out.2.2.1, out.2.2.2.1, none)) := by
    unfold fit_est
    cases hl : load_trans_step s lim fuel f cacheT raise_on_exception preprocess with
    | error e => rfl
    | ok tr_list =>
        simp only []
        cases htr : transform_train_fold tr_list
            (slice_array x (some y) tri 0).1
            ((slice_array x (some y) tri 0).2.getD []) with
        | error e => rfl
        | ok xytr =>
            simp only []
            cases hte : transform_test_fold tr_list
                (slice_array x (some y) (some t) 0).1 with
            | error e => rfl
            | ok xte =>
                obtain ⟨e, he⟩ := hfail
                  ((slice_array x (some y) (some t) 0).2.getD [])
                  (predE (fitE inst xytr.1 xytr.2) xte)
                simp [scorer_call, he, Except.map]
  refine ⟨hmain, ?_⟩
  intro out hout
  rw [hmain] at hout
  cases h2 : fit_est s lim fuel f cacheT inst_name inst fitE predE x y pred tri
      (some t) col raise_on_exception preprocess (some sc2) with
  | error e => rw [h2] at hout; exact absurd hout (by simp [Except.map])
  | ok o =>
      rw [h2] at hout
      simp only [Except.map] at hout
      cases hout
      rfl

/-- C6 witness: a concrete fit task with an assigned test partition whose
scorer always raises: the outcome equals the successful-scorer run with the
score forced to `None`. -/
theorem claim_C6_witness :
    fit_est 1 1 1 "k"
      (fun _ => (none : Option (List (String × Transformer (List ℕ) (List ℕ)))))
      "e" () (fun e _ _ => e)
      (fun _ xs => PredV.one (xs.map (fun _ => (0 : ℕ))))
      [0] [0] (Buff.mk 1 (fun _ _ => 0)) none (some (TIdx.single 0 1)) 0
      true false
      (some (fun _ _ => (Except.error PyErr.valueError : Except PyErr ℕ)))
      = (fit_est 1 1 1 "k"
          (fun _ => (none : Option (List (String × Transformer (List ℕ) (List ℕ)))))
          "e" () (fun e _ _ => e)
          (fun _ xs => PredV.one (xs.map (fun _ => (0 : ℕ))))
          [0] [0] (Buff.mk 1 (fun _ _ => 0)) none (some (TIdx.single 0 1)) 0
          true false
          (some (fun _ _ => (Except.ok 5 : Except PyErr ℕ)))).map
          (fun out => (out.1, out.2.1, out.2.2.1, out.2.2.2.1, none)) :=
  (claim_C6_scorer_failure ℕ ℕ ℕ ℕ Unit 1 1 1 "k" (fun _ => none) "e" ()
    (fun e _ _ => e) (fun _ xs => PredV.one (xs.map (fun _ => 0)))
    [0] [0] (Buff.mk 1 (fun _ _ => 0)) none (TIdx.single 0 1) 0 true false
    (fun _ _ => Except.error PyErr.valueError) (fun _ _ => Except.ok 5)
    (fun yt p => ⟨PyErr.valueError, rfl⟩)).1

/-- C4 counterexample: a fold entry whose case name is named but contains no
`'__'` separator.  The claim says the fold score of key `"c___svc__1"` (case
`"c"`, instance `"svc__1"`) is appended under `"c__svc"`; the code tests
`'__' in case_name`, derives the display name `"svc"` alone, and raises
`KeyError` (the seeded name was `"c__svc"`), so `_build_scores` fails instead
of producing the claimed mapping. -/
theorem claim_C4_counterexample :
    build_scores 1 [("c___svc".toList, 1), ("c___svc__1".toList, 1)] = none := rfl

/-- C4 (amended): score aggregation.  The first `n_pred` entries seed every
estimator display name with an empty list; each remaining fold entry strips
the trailing fold tag from the instance name and is appended under the
stripped instance name alone when its case name contains no `'__'` (which
covers the unnamed case), or `firstSegment(caseName) + '__' + instanceName`
when it does; the final mapping gives `(mean, std)` of each name's fold
scores — unnamed-case `"svc"` with fold scores `[0.8, 0.9, 1.0]` yields
`(0.9, std = sqrt(1/150))` — and a name with zero fold scores yields
`(NaN, NaN)` (modelled `(none, none)`). -/
theorem claim_C4_build_scores :
    (∀ v0 v1 v2 v3 : ℚ,
      build_scores 1 [("___svc".toList, v0), ("___svc__1".toList, v1),
                      ("___svc__2".toList, v2), ("___svc__3".toList, v3)]
        = some [("svc".toList,
            (some ((v1 + v2 + v3) / 3),
             some (Real.sqrt (((v1 - (v1 + v2 + v3) / 3) ^ 2
               + (v2 - (v1 + v2 + v3) / 3) ^ 2
               + (v3 - (v1 + v2 + v3) / 3) ^ 2) / 3 : ℚ))))]) ∧
    (build_scores 1 [("___svc".toList, 1), ("___svc__1".toList, 4/5),
                     ("___svc__2".toList, 9/10), ("___svc__3".toList, 1)]
        = some [("svc".toList, (some (9/10), some (Real.sqrt (1/150))))]) ∧
    (∀ v0 v1 v2 : ℚ,
      build_scores 1 [("c___svc".toList, v0), ("c__1___svc__1".toList, v1),
                      ("c__2___svc__2".toList, v2)]
        = some [("c__svc".toList,
            (some ((v1 + v2) / 2),
             some (Real.sqrt (((v1 - (v1 + v2) / 2) ^ 2
               + (v2 - (v1 + v2) / 2) ^ 2) / 2 : ℚ))))]) ∧
    (∀ v0 : ℚ, build_scores 1 [("___svc".toList, v0)]
        = some [("svc".toList, (none, none))]) := by
  have hmean3 : ∀ v1 v2 v3 : ℚ, npMean [v1, v2, v3] = some ((v1 + v2 + v3) / 3) := by
    intro v1 v2 v3
    simp [npMean]
    try ring_nf
  have hvar3 : ∀ v1 v2 v3 : ℚ,
      npVar [v1, v2, v3]
        = some (((v1 - (v1 + v2 + v3) / 3) ^ 2 + (v2 - (v1 + v2 + v3) / 3) ^ 2
            + (v3 - (v1 + v2 + v3) / 3) ^ 2) / 3) := by
    intro v1 v2 v3
    rw [npVar, hmean3]
    simp
    try ring_nf
  have hstd3 : ∀ v1 v2 v3 : ℚ,
      npStd [v1, v2, v3]
        = some (Real.sqrt (((v1 - (v1 + v2 + v3) / 3) ^ 2
            + (v2 - (v1 + v2 + v3) / 3) ^ 2
            + (v3 - (v1 + v2 + v3) / 3) ^ 2) / 3 : ℚ)) := by
    intro v1 v2 v3
    rw [npStd, hvar3]
    rfl
  have hmean2 : ∀ v1 v2 : ℚ, npMean [v1, v2] = some ((v1 + v2) / 2) := by
    intro v1 v2
    simp [npMean]
    try ring_nf
  have hvar2 : ∀ v1 v2 : ℚ,
      npVar [v1, v2]
        = some (((v1 - (v1 + v2) / 2) ^ 2 + (v2 - (v1 + v2) / 2) ^ 2) / 2) := by
    intro v1 v2
    rw [npVar, hmean2]
    simp
    try ring_nf
  have hstd2 : ∀ v1 v2 : ℚ,
      npStd [v1, v2]
        = some (Real.sqrt (((v1 - (v1 + v2) / 2) ^ 2
            + (v2 - (v1 + v2) / 2) ^ 2) / 2 : ℚ)) := by
    intro v1 v2
    rw [npStd, hvar2]
    rfl
  refine ⟨?_, ?_, ?_, ?_⟩
  · intro v0 v1 v2 v3
    have h0 : build_scores 1 [("___svc".toList, v0), ("___svc__1".toList, v1),
        ("___svc__2".toList, v2), ("___svc__3".toList, v3)]
        = some [("svc".toList, (npMean [v1, v2, v3], npStd [v1, v2, v3]))] := rfl
    rw [h0, hmean3, hstd3]
  · have h0 : build_scores 1 [("___svc".toList, 1), ("___svc__1".toList, 4/5),
        ("___svc__2".toList, 9/10), ("___svc__3".toList, 1)]
        = some [("svc".toList, (npMean [4/5, 9/10, 1], npStd [4/5, 9/10, 1]))] := rfl
    have hm : npMean [4/5, 9/10, 1] = some (9/10 : ℚ) := by
      simp [npMean]
      norm_num
    have hv : npVar [4/5, 9/10, 1] = some (1/150 : ℚ) := by
      rw [npVar, hm]
      simp
      norm_num
    have hstd : npStd [4/5, 9/10, 1] = some (Real.sqrt (1/150)) := by
      rw [npStd, hv]
      try simp only [Option.map_some']
      norm_num
    rw [h0, hm, hstd]
  · intro v0 v1 v2
    have h0 : build_scores 1 [("c___svc".toList, v0), ("c__1___svc__1".toList, v1),
        ("c__2___svc__2".toList, v2)]
        = some [("c__svc".toList, (npMean [v1, v2], npStd [v1, v2]))] := rfl
    rw [h0, hmean2, hstd2]
  · intro v0
    rfl
